import Mathlib

/-!
Verification development for the cpptime timer component
(`cpptime.h`, `cpptime.cpp`, and the revised `cpptime.cpp` found in the
repository as `unnamed/part_000`).

The repository contains two revisions of the implementation file.  They
differ in three places:
* the `Time_event` comparator (`operator<`): the first revision compares
  `l.next < r.next` (which makes `std::priority_queue` a max-heap on the
  next-fire instant), the second compares `r.next < l.next` (min-heap);
* `add`: the first revision draws ids from a `cur_id` counter / free pool
  and calls `events.insert(events.begin() + id, ...)` (which shifts the
  tail of the vector), the second overwrites `events[id]` in place and
  uses `events.size()` for fresh ids;
* `stop`: the first revision clears `events` and `time_events` only, the
  second also drains `free_ids`.
Both revisions share `remove` and the body of the worker loop `run`
verbatim.  Definitions without a suffix follow the revised file
(`unnamed/part_000`); definitions with suffix `_v1` follow `cpptime.cpp`
where the two differ.

Machine integers: `timestamp` is a `std::chrono::time_point` of the
steady clock and `duration` is `std::chrono::microseconds`; both have a
signed 64-bit representation, modelled as `Int` (none of the operations
performed on them here can overflow 64 bits in any scenario we evaluate,
so no explicit wrap-around is modelled).  `timer_id` is `std::size_t`,
modelled as `Nat`.

C++ behaviour that is undefined (out-of-bounds `operator[]` on a
`std::vector`, out-of-range `insert`) is modelled by `Option`: `none`
means the source program's behaviour is undefined at that input.
-/

/-- A `std::function<void(timer_id)>` handler slot: either the empty
(default-constructed / `nullptr`) function object, or some callable,
distinguished by an abstract tag.  The effect a callable has when the
worker invokes it is supplied separately to the worker-loop model as an
environment (see `runStep`). -/
inductive Handler where
  | empty : Handler
  | fn : Nat → Handler
deriving DecidableEq

/-- The `Event` record of both revisions: id, start instant, period,
handler, validity flag. -/
structure Event where
  id : Nat
  start : Int
  period : Int
  handler : Handler
  valid : Bool
deriving DecidableEq

/-- The default-constructed `Event` (id 0, zero start and period, null
handler, `valid = false`); used by `std::vector::resize` padding. -/
def Event.mkDefault : Event :=
  { id := 0, start := 0, period := 0, handler := Handler.empty, valid := false }

/-- The `Time_event` record: next timeout plus the id of the `Event` it
refers to. -/
structure Time_event where
  next : Int
  ref : Nat
deriving DecidableEq

/-- `operator<` of the revised file (`unnamed/part_000`):
`return r.next < l.next;`. -/
def Time_event.lt (l r : Time_event) : Bool :=
  decide (r.next < l.next)

/-- `operator<` of `cpptime.cpp`: `return l.next < r.next;`. -/
def Time_event.lt_v1 (l r : Time_event) : Bool :=
  decide (l.next < r.next)

/-- `std::priority_queue` keeps a maximal element (with respect to the
strict comparator `lt`, the translation of `operator<`) at `top()`.  We
model the queue as a list whose head plays the role of `top()`: `push`
inserts the new element in front of the first strictly smaller element,
so the head is always maximal for the comparator and elements with equal
keys keep a consistent relative order (the heap's tie-break order among
equal keys is unspecified in C++; any consistent order is a faithful
model). -/
def pqPushBy (lt : Time_event → Time_event → Bool) :
    List Time_event → Time_event → List Time_event
  | [], e => [e]
  | x :: xs, e => if lt x e then e :: x :: xs else x :: pqPushBy lt xs e

/-- Queue push of the revised file: min-next at the head. -/
def pq_push (q : List Time_event) (e : Time_event) : List Time_event :=
  pqPushBy Time_event.lt q e

/-- Queue push of `cpptime.cpp`: max-next at the head. -/
def pq_push_v1 (q : List Time_event) (e : Time_event) : List Time_event :=
  pqPushBy Time_event.lt_v1 q e

/-- The mutable state owned by one timer service in the revised file:
the event vector, the expiration queue (head = `top()`), the free-id
stack (head = `top()`), and the `done` flag. -/
structure TimerState where
  events : List Event
  time_events : List Time_event
  free_ids : List Nat
  done : Bool
deriving DecidableEq

/-- The mutable state of the `cpptime.cpp` revision, which additionally
keeps the fresh-id counter `cur_id`. -/
structure TimerStateV1 where
  events : List Event
  time_events : List Time_event
  free_ids : List Nat
  done : Bool
  cur_id : Nat
deriving DecidableEq

/-- `remove` — identical in both revisions:
`if(events.size() < id) return false; events[id].valid = false; return true;`
When `id` equals `events.size()` the guard does not fire and
`events[id]` is an out-of-bounds write, returned as `none`. -/
def remove (s : TimerState) (id : Nat) : Option (TimerState × Bool) :=
  if s.events.length < id then
    some (s, false)
  else
    match s.events[id]? with
    | some ev => some ({ s with events := s.events.set id { ev with valid := false } }, true)
    | none => none

/-- `add` of the revised file: prefer a free id and overwrite its slot
in place (`events[id] = std::move(e)`), otherwise append a fresh event
at index `events.size()`; then push the first expiration entry and
return the id.  A pooled id at or beyond `events.size()` would make
`events[id] = ...` an out-of-bounds write, returned as `none`. -/
def add (s : TimerState) (when : Int) (handler : Handler) (period : Int) :
    Option (TimerState × Nat) :=
  match s.free_ids with
  | [] =>
    let id := s.events.length
    let e : Event := { id := id, start := when, period := period, handler := handler, valid := true }
    some ({ s with
            events := s.events ++ [e],
            time_events := pq_push s.time_events { next := when, ref := id } }, id)
  | id :: rest =>
    if id < s.events.length then
      let e : Event := { id := id, start := when, period := period, handler := handler, valid := true }
      some ({ s with
              events := s.events.set id e,
              free_ids := rest,
              time_events := pq_push s.time_events { next := when, ref := id } }, id)
    else none

/-- `resize` on a `std::vector<Event>`: truncate or pad with
default-constructed events. -/
def listResize (l : List Event) (n : Nat) : List Event :=
  l.take n ++ List.replicate (n - l.length) Event.mkDefault

/-- `std::vector::insert(begin() + n, e)`: insert `e` before position
`n`, shifting the tail right (defined for `n ≤ length`, the only way
the call site reaches it). -/
def listInsertAt : Nat → Event → List Event → List Event
  | 0, e, xs => e :: xs
  | _ + 1, e, [] => [e]
  | n + 1, e, x :: xs => x :: listInsertAt n e xs

/-- `next_id` of `cpptime.cpp`: pop the free-id stack if non-empty,
else return `cur_id++`. -/
def next_id_v1 (s : TimerStateV1) : Nat × TimerStateV1 :=
  match s.free_ids with
  | [] => (s.cur_id, { s with cur_id := s.cur_id + 1 })
  | id :: rest => (id, { s with free_ids := rest })

/-- `add` of `cpptime.cpp`: take `next_id()`, grow the vector if
`events.size() <= id`, then `events.insert(events.begin() + id, e)`
(which shifts every element at index ≥ id one slot to the right), push
the expiration entry and return the id. -/
def add_v1 (s : TimerStateV1) (when : Int) (handler : Handler) (period : Int) :
    TimerStateV1 × Nat :=
  let p := next_id_v1 s
  let id := p.1
  let s₁ := p.2
  let e : Event := { id := id, start := when, period := period, handler := handler, valid := true }
  let grown := if s₁.events.length ≤ id then listResize s₁.events (id + 1) else s₁.events
  ({ s₁ with
     events := listInsertAt id e grown,
     time_events := pq_push_v1 s₁.time_events { next := when, ref := id } }, id)

/-- `stop` of the revised file: set `done`, clear the event vector,
drain the expiration queue and the free-id stack.  (The subsequent
`notify_all` and `join` have no effect on the modelled state.) -/
def stop (s : TimerState) : TimerState :=
  { s with done := true, events := [], time_events := [], free_ids := [] }

/-- `stop` of `cpptime.cpp`: set `done`, clear the event vector, drain
the expiration queue — the free-id stack is left untouched. -/
def stop_v1 (s : TimerStateV1) : TimerStateV1 :=
  { s with done := true, events := [], time_events := [] }

/-- One iteration of the worker loop `run` (identical in both revisions
once the top entry is fixed), in the firing dimension: `env j s'` is the
state transformation performed by the handler stored for id `j` when it
is invoked with the lock released (a handler may call `add`/`remove` on
the same instance).  Returns the successor state and the id whose
handler was invoked this iteration, if any; `none` as the outer result
marks an iteration whose C++ behaviour is undefined (the `events[te.ref]`
access, through the reference `ev`, lands out of bounds). -/
def runStep (env : Nat → TimerState → TimerState) (now : Int) (s : TimerState) :
    Option (TimerState × Option Nat) :=
  if s.done then some (s, none) else
  match s.time_events with
  | [] => some (s, none)
  | te :: rest =>
    if te.next ≤ now then
      let s₁ : TimerState := { s with time_events := rest }
      match s₁.events[te.ref]? with
      | none => none
      | some ev =>
        if ev.valid = false then
          some ({ s₁ with free_ids := te.ref :: s₁.free_ids }, none)
        else
          let s₂ := env te.ref s₁
          match s₂.events[te.ref]? with
          | none => none
          | some ev₂ =>
            if ev₂.valid = false then
              some ({ s₂ with free_ids := te.ref :: s₂.free_ids }, some te.ref)
            else if 0 < ev₂.period then
              some ({ s₂ with
                      time_events :=
                        pq_push s₂.time_events { next := te.next + ev₂.period, ref := te.ref } },
                    some te.ref)
            else
              some ({ s₂ with
                      events := s₂.events.set te.ref { ev₂ with valid := false },
                      free_ids := te.ref :: s₂.free_ids }, some te.ref)
    else some (s, none)

/-- Iterate the worker loop over a list of observed clock values,
collecting the ids whose handlers were invoked. -/
def runTrace (env : Nat → TimerState → TimerState) :
    List Int → TimerState → Option (TimerState × List Nat)
  | [], s => some (s, [])
  | now :: rest, s =>
    match runStep env now s with
    | none => none
    | some (s', f) =>
      match runTrace env rest s' with
      | none => none
      | some (s'', fs) => some (s'', f.toList ++ fs)

/-- The event stored for `id` is absent or carries `valid = false`. -/
def invalidAt (s : TimerState) (id : Nat) : Bool :=
  (s.events[id]?).all fun ev => ev.valid = false

/-- The identity handler environment: handlers that do not call back
into the timer API. -/
def envId : Nat → TimerState → TimerState := fun _ s => s

/-- A handler environment in which every handler's body calls
`remove` on the id it was invoked with (the "remove own id from inside
the callback" scenario of the tests). -/
def envRemoveSelf : Nat → TimerState → TimerState := fun j t =>
  match remove t j with
  | some p => p.1
  | none => t

/-- A freshly started timer service: no events, empty queue, empty
free pool. -/
def sEmpty : TimerState :=
  { events := [], time_events := [], free_ids := [], done := false }

/-- A retired (invalidated) one-shot event at id 0. -/
def evRetired : Event :=
  { id := 0, start := 5, period := 0, handler := Handler.fn 0, valid := false }

/-- A state holding one retired event and nothing else. -/
def sRetired : TimerState :=
  { events := [evRetired], time_events := [], free_ids := [], done := false }

/-- A state holding one retired event whose stale expiration entry is
still queued. -/
def sInv : TimerState :=
  { events := [evRetired], time_events := [{ next := 5, ref := 0 }],
    free_ids := [], done := false }

/-- A valid periodic event at id 0 with period 3, first firing at 5. -/
def evPer : Event :=
  { id := 0, start := 5, period := 3, handler := Handler.fn 0, valid := true }

/-- A state holding one valid periodic event with its entry queued. -/
def sPer : TimerState :=
  { events := [evPer], time_events := [{ next := 5, ref := 0 }],
    free_ids := [], done := false }

/-- A `cpptime.cpp` state with two event slots (slot 0 retired and
recycled into the free pool, slot 1 valid) — the input on which `add`
is handed a recycled id. -/
def sV1 : TimerStateV1 :=
  { events := [{ id := 0, start := 0, period := 0, handler := Handler.empty, valid := false },
               { id := 1, start := 7, period := 0, handler := Handler.fn 1, valid := true }],
    time_events := [], free_ids := [0], done := false, cur_id := 2 }

/-- A `cpptime.cpp` state whose free pool is non-empty when `stop` is
called. -/
def sV1stop : TimerStateV1 :=
  { events := [], time_events := [], free_ids := [7], done := false, cur_id := 3 }

/-- A state with two valid one-shot events and their queued entries. -/
def sTwo : TimerState :=
  { events := [{ id := 0, start := 5, period := 0, handler := Handler.fn 0, valid := true },
               { id := 1, start := 7, period := 0, handler := Handler.fn 1, valid := true }],
    time_events := [{ next := 5, ref := 0 }, { next := 7, ref := 1 }],
    free_ids := [], done := false }

/-- The state `add` produces from `sEmpty` for a timeout at 5 with an
empty handler. -/
def sAdded : TimerState :=
  { events := [{ id := 0, start := 5, period := 0, handler := Handler.empty, valid := true }],
    time_events := [{ next := 5, ref := 0 }], free_ids := [], done := false }

/-- `sTwo` after `remove 0`: slot 0 is marked invalid, everything else
untouched. -/
def sTwoRemoved : TimerState :=
  { events := [{ id := 0, start := 5, period := 0, handler := Handler.fn 0, valid := false },
               { id := 1, start := 7, period := 0, handler := Handler.fn 1, valid := true }],
    time_events := [{ next := 5, ref := 0 }, { next := 7, ref := 1 }],
    free_ids := [], done := false }

/-- `sTwoRemoved` after a further `add` at 9: the free pool is empty,
so the fresh id 2 is appended. -/
def sTwoAdded : TimerState :=
  { events := [{ id := 0, start := 5, period := 0, handler := Handler.fn 0, valid := false },
               { id := 1, start := 7, period := 0, handler := Handler.fn 1, valid := true },
               { id := 2, start := 9, period := 0, handler := Handler.fn 2, valid := true }],
    time_events := [{ next := 5, ref := 0 }, { next := 7, ref := 1 }, { next := 9, ref := 2 }],
    free_ids := [], done := false }

/-- `sPer` after its handler removed its own id while the worker held
the entry popped: the event is invalid, the queue empty. -/
def sPerRemoved : TimerState :=
  { events := [{ id := 0, start := 5, period := 3, handler := Handler.fn 0, valid := false }],
    time_events := [], free_ids := [], done := false }

/-- `sPer` after its periodic event fired at its scheduled instant 5
and was re-armed at 5 + 3 = 8. -/
def sPerRearmed : TimerState :=
  { events := [evPer], time_events := [{ next := 8, ref := 0 }],
    free_ids := [], done := false }

/-! ## Helper lemmas -/

/-- The element handed to a queue push is a member of the resulting
queue (no entry is coalesced or dropped). -/
theorem pqPushBy_self_mem (lt : Time_event → Time_event → Bool)
    (q : List Time_event) (e : Time_event) : e ∈ pqPushBy lt q e := by
  induction q with
  | nil => simp [pqPushBy]
  | cons x xs ih =>
    simp only [pqPushBy]
    split
    · exact List.mem_cons_self _ _
    · exact List.mem_cons_of_mem _ ih

/-! ## Claim theorems -/

/-- C1: the claim states that the expiration queue is a min-heap — the
entry the worker takes via `top()`/`pop()` has a next-fire instant less
than or equal to that of every other queued entry.  In `cpptime.cpp`
the comparator `operator<(l, r) = l.next < r.next` makes
`std::priority_queue` keep the LARGEST `next` at `top()`: pushing
entries with instants 1 and 2 leaves the entry with instant 2 at the
top while the entry with instant 1 is still queued, and 2 ≤ 1 fails.
(The revised file `unnamed/part_000` reverses the comparator, and there
the top entry is indeed the minimum, as the final conjunct shows.) -/
theorem c1_top_is_max_code_bug :
    pq_push_v1 (pq_push_v1 [] { next := 1, ref := 0 }) { next := 2, ref := 1 } =
      [{ next := 2, ref := 1 }, { next := 1, ref := 0 }]
    ∧ (pq_push_v1 (pq_push_v1 [] { next := 1, ref := 0 }) { next := 2, ref := 1 }).head? =
        some { next := 2, ref := 1 }
    ∧ { next := 1, ref := 0 } ∈
        pq_push_v1 (pq_push_v1 [] { next := 1, ref := 0 }) { next := 2, ref := 1 }
    ∧ ¬ ((2 : Int) ≤ (1 : Int))
    ∧ (pq_push (pq_push [] { next := 1, ref := 0 }) { next := 2, ref := 1 }).head? =
        some { next := 1, ref := 0 } := by
  decide

/-- C2: the claim states that `remove(id)` returns false exactly for
ids outside the ever-allocated range and never accesses storage out of
bounds.  The guard in both revisions is `events.size() < id`, so on a
fresh service (store size 0) the never-allocated id 0 slips past the
guard (`0 < 0` is false) and `events[0].valid = false` writes out of
bounds — undefined behaviour, modelled as `none` — instead of
returning false.  Only ids strictly greater than the size return
false. -/
theorem c2_remove_oob_code_bug :
    sEmpty.events.length = 0
    ∧ remove sEmpty 0 = none
    ∧ remove sEmpty 1 = some (sEmpty, false) := by
  decide

/-- C6: the claim states that `add` on a recycled id overwrites that
id's slot in place, leaving the store size and every other slot
unchanged.  In `cpptime.cpp`, `add` calls
`events.insert(events.begin() + id, std::move(e))`, which SHIFTS the
tail of the vector: on a store of size 2 whose free pool holds the
recycled id 0, the store grows to size 3 and slot 1 — which held the
still-valid event with id 1 — afterwards holds the old retired slot-0
event.  (The revised file `unnamed/part_000` instead assigns
`events[id] = std::move(e)`, which is the behaviour the claim
describes.) -/
theorem c6_insert_shifts_code_bug :
    (add_v1 sV1 5 (Handler.fn 9) 0).2 = 0
    ∧ sV1.free_ids = [0]
    ∧ sV1.events.length = 2
    ∧ (add_v1 sV1 5 (Handler.fn 9) 0).1.events.length = 3
    ∧ sV1.events[1]? =
        some { id := 1, start := 7, period := 0, handler := Handler.fn 1, valid := true }
    ∧ (add_v1 sV1 5 (Handler.fn 9) 0).1.events[1]? =
        some { id := 0, start := 0, period := 0, handler := Handler.empty, valid := false } := by
  decide

/-- C8: the claim states that `stop()` clears all three containers —
event store, expiration queue, and free-id pool.  In `cpptime.cpp`,
`stop` clears `events` and drains `time_events` but never touches
`free_ids`: on a state whose free pool holds id 7, the pool still
holds 7 after `stop_v1`.  (The revised file `unnamed/part_000` also
drains the free pool, as the final conjunct shows for every state.) -/
theorem c8_stop_keeps_free_pool_code_bug :
    (stop_v1 sV1stop).free_ids = [7]
    ∧ (stop_v1 sV1stop).free_ids ≠ []
    ∧ (stop_v1 sV1stop).events = []
    ∧ (stop_v1 sV1stop).time_events = []
    ∧ ∀ s : TimerState,
        (stop s).events = [] ∧ (stop s).time_events = [] ∧ (stop s).free_ids = []
          ∧ (stop s).done = true := by
  refine ⟨by decide, by decide, by decide, by decide, ?_⟩
  intro s
  exact ⟨rfl, rfl, rfl, rfl⟩

/-- C7 counterexample: the claim states that `remove` on an id that
refers to an already-retired (invalidated) event returns false.  On a
state whose only event (id 0) is retired, `remove 0` returns TRUE: the
code never consults the validity flag, it only checks the range
guard. -/
theorem c7_retired_remove_cex :
    evRetired.valid = false
    ∧ sRetired.events[0]? = some evRetired
    ∧ remove sRetired 0 = some (sRetired, true) := by
  decide

/-- C7 (amended): `remove(id)` returns false exactly for ids strictly
greater than the store size (and there it neither throws nor touches
storage); for every id with a slot in the store — including one whose
event is already retired — it returns TRUE, (re)marking the slot
invalid.  (At `id` equal to the store size the access is out of
bounds; see the C2 theorem.) -/
theorem c7_remove_amended (s : TimerState) (id : Nat) :
    (s.events.length < id → remove s id = some (s, false))
    ∧ (∀ ev, s.events[id]? = some ev →
        remove s id =
          some ({ s with events := s.events.set id { ev with valid := false } }, true)) := by
  constructor
  · intro h
    unfold remove
    rw [if_pos h]
  · intro ev hev
    have hlt : id < s.events.length := (List.getElem?_eq_some.mp hev).1
    unfold remove
    rw [if_neg (Nat.not_lt.mpr (Nat.le_of_lt hlt)), hev]

/-- Witness for the amended C7 at concrete inputs: on `sRetired`
(store size 1, slot 0 retired), `remove 5` returns false and
`remove 0` returns true. -/
theorem c7_witness :
    remove sRetired 5 = some (sRetired, false)
    ∧ remove sRetired 0 =
        some ({ sRetired with
                events := sRetired.events.set 0 { evRetired with valid := false } }, true) :=
  ⟨(c7_remove_amended sRetired 5).1 (by decide),
   (c7_remove_amended sRetired 0).2 evRetired (by decide)⟩

/-- C9 counterexample: the claim states that `add` fails when given an
empty (non-callable) handler and does not store an event that would
later be dispatched.  Neither revision inspects the handler: on a
fresh service, `add` with the empty handler succeeds, stores a VALID
event holding the empty handler, pushes its expiration entry and
returns id 0 — the worker will later pop it and attempt to invoke the
empty function object. -/
theorem c9_empty_handler_added_cex :
    add sEmpty 5 Handler.empty 0 = some (sAdded, 0)
    ∧ sAdded.events[0]? =
        some { id := 0, start := 5, period := 0, handler := Handler.empty, valid := true } := by
  decide

/-- C9 (amended): `add` never fails (provided every pooled id has a
slot, which normal operation maintains): for EVERY handler — the empty
one included — it allocates an id, stores a valid event carrying that
handler, pushes the first expiration entry and returns the id.  Empty
handlers are not rejected at `add` time. -/
theorem c9_add_never_fails (s : TimerState) (when : Int) (hd : Handler) (period : Int)
    (hpool : ∀ i ∈ s.free_ids, i < s.events.length) :
    (add s when hd period).isSome = true
    ∧ ∀ s' id, add s when hd period = some (s', id) →
        s'.events[id]? =
          some { id := id, start := when, period := period, handler := hd, valid := true }
        ∧ { next := when, ref := id } ∈ s'.time_events := by
  cases hfree : s.free_ids with
  | nil =>
    constructor
    · simp [add, hfree]
    · intro s' id h
      simp only [add, hfree, Option.some.injEq, Prod.mk.injEq] at h
      obtain ⟨rfl, rfl⟩ := h
      exact ⟨List.getElem?_concat_length _ _, pqPushBy_self_mem _ _ _⟩
  | cons i rest =>
    have hi : i < s.events.length := hpool i (by rw [hfree]; exact List.mem_cons_self i rest)
    constructor
    · simp [add, hfree, hi]
    · intro s' id h
      simp only [add, hfree] at h
      rw [if_pos hi] at h
      simp only [Option.some.injEq, Prod.mk.injEq] at h
      obtain ⟨rfl, rfl⟩ := h
      exact ⟨List.getElem?_set_eq_of_lt _ hi, pqPushBy_self_mem _ _ _⟩

/-- Witness for the amended C9 at a concrete input: on a fresh service
`add` with the empty handler succeeds, stores the valid event at the
returned id 0 and queues its entry. -/
theorem c9_witness :
    (add sEmpty 5 Handler.empty 0).isSome = true
    ∧ sAdded.events[0]? =
        some { id := 0, start := 5, period := 0, handler := Handler.empty, valid := true }
    ∧ { next := (5 : Int), ref := 0 } ∈ sAdded.time_events :=
  ⟨(c9_add_never_fails sEmpty 5 Handler.empty 0 (by decide)).1,
   ((c9_add_never_fails sEmpty 5 Handler.empty 0 (by decide)).2 sAdded 0 rfl).1,
   ((c9_add_never_fails sEmpty 5 Handler.empty 0 (by decide)).2 sAdded 0 rfl).2⟩

/-- A handler that calls `remove` (on any id) can only clear validity
flags: it preserves the invalidity of any fixed id. -/
theorem envRemoveSelf_preserves_invalid (id j : Nat) (t : TimerState)
    (h : invalidAt t id = true) : invalidAt (envRemoveSelf j t) id = true := by
  unfold envRemoveSelf
  cases hr : remove t j with
  | none => exact h
  | some p =>
    unfold remove at hr
    split at hr
    · cases hr
      exact h
    · split at hr
      · rename_i ev heq
        cases hr
        by_cases hij : j = id
        · subst hij
          have hlt : j < t.events.length := (List.getElem?_eq_some.mp heq).1
          simp [invalidAt, List.getElem?_set_eq_of_lt _ hlt]
        · simp only [invalidAt] at h ⊢
          rwa [List.getElem?_set_ne hij]
      · exact Option.noConfusion hr

/-- One worker iteration neither invokes the handler of an id whose
event is invalid (or absent) nor makes that event valid again. -/
theorem runStep_invalid_spared (env : Nat → TimerState → TimerState) (id : Nat)
    (henv : ∀ j t, invalidAt t id = true → invalidAt (env j t) id = true)
    (now : Int) (s s' : TimerState) (f : Option Nat)
    (hinv : invalidAt s id = true)
    (hstep : runStep env now s = some (s', f)) :
    invalidAt s' id = true ∧ f ≠ some id := by
  unfold runStep at hstep
  split at hstep
  · simp only [Option.some.injEq, Prod.mk.injEq] at hstep
    obtain ⟨rfl, rfl⟩ := hstep
    exact ⟨hinv, by simp⟩
  · split at hstep
    · simp only [Option.some.injEq, Prod.mk.injEq] at hstep
      obtain ⟨rfl, rfl⟩ := hstep
      exact ⟨hinv, by simp⟩
    · rename_i te rest htop
      split at hstep
      · rename_i hexp
        dsimp only at hstep
        split at hstep
        · exact Option.noConfusion hstep
        · rename_i ev heq
          split at hstep
          · -- popped an invalid entry: discard, recycle, no fire
            simp only [Option.some.injEq, Prod.mk.injEq] at hstep
            obtain ⟨rfl, rfl⟩ := hstep
            refine ⟨?_, by simp⟩
            simpa [invalidAt] using hinv
          · -- the popped event is valid, so its id cannot be `id`
            rename_i hvalid
            have hne : te.ref ≠ id := by
              intro hcontra
              subst hcontra
              simp only [invalidAt] at hinv
              rw [show ({ s with time_events := rest } : TimerState).events = s.events from rfl]
                at heq
              rw [heq] at hinv
              simp at hinv
              exact hvalid hinv
            have hinv₂ : invalidAt (env te.ref { s with time_events := rest }) id = true :=
              henv te.ref _ (by simpa [invalidAt] using hinv)
            split at hstep
            · exact Option.noConfusion hstep
            · rename_i ev₂ heq₂
              split at hstep
              · simp only [Option.some.injEq, Prod.mk.injEq] at hstep
                obtain ⟨rfl, rfl⟩ := hstep
                refine ⟨by simpa [invalidAt] using hinv₂, by simp [hne]⟩
              · split at hstep
                · simp only [Option.some.injEq, Prod.mk.injEq] at hstep
                  obtain ⟨rfl, rfl⟩ := hstep
                  refine ⟨by simpa [invalidAt] using hinv₂, by simp [hne]⟩
                · simp only [Option.some.injEq, Prod.mk.injEq] at hstep
                  obtain ⟨rfl, rfl⟩ := hstep
                  refine ⟨?_, by simp [hne]⟩
                  simp only [invalidAt] at hinv₂ ⊢
                  rwa [List.getElem?_set_ne hne]
      · simp only [Option.some.injEq, Prod.mk.injEq] at hstep
        obtain ⟨rfl, rfl⟩ := hstep
        exact ⟨hinv, by simp⟩

/-- Along any run of the worker loop, an id whose event is invalid —
and which every handler invocation keeps invalid — is never fired. -/
theorem runTrace_invalid_never_fires (env : Nat → TimerState → TimerState) (id : Nat)
    (henv : ∀ j t, invalidAt t id = true → invalidAt (env j t) id = true) :
    ∀ (nows : List Int) (s s'' : TimerState) (fs : List Nat),
      invalidAt s id = true → runTrace env nows s = some (s'', fs) → id ∉ fs := by
  intro nows
  induction nows with
  | nil =>
    intro s s'' fs hinv h
    simp only [runTrace, Option.some.injEq, Prod.mk.injEq] at h
    obtain ⟨rfl, rfl⟩ := h
    simp
  | cons now rest ih =>
    intro s s'' fs hinv h
    unfold runTrace at h
    cases hstep : runStep env now s with
    | none =>
      rw [hstep] at h
      exact Option.noConfusion h
    | some p =>
      rw [hstep] at h
      obtain ⟨s₁, f⟩ := p
      dsimp only at h
      cases htr : runTrace env rest s₁ with
      | none =>
        rw [htr] at h
        exact Option.noConfusion h
      | some q =>
        rw [htr] at h
        obtain ⟨s₂, fs₁⟩ := q
        simp only [Option.some.injEq, Prod.mk.injEq] at h
        obtain ⟨rfl, rfl⟩ := h
        obtain ⟨hinv₁, hf⟩ := runStep_invalid_spared env id henv now s s₁ f hinv hstep
        have hrest := ih s₁ s₂ fs₁ hinv₁ htr
        intro hmem
        rcases List.mem_append.mp hmem with hm | hm
        · cases f with
          | none => simp at hm
          | some x =>
            simp only [Option.toList, List.mem_singleton] at hm
            exact hf (by rw [hm])
        · exact hrest hm

/-- C3: when the worker pops an expiration entry whose referenced
event is invalid, it discards the entry and pushes the id back onto
the free pool without invoking any handler (the step result carries no
fired id); and once `remove id` has succeeded, a worker run whose
handler invocations keep that id invalid (e.g. handlers that do not
re-`add` it) never fires id's handler, however many iterations run. -/
theorem c3_invalid_entry_discarded (env : Nat → TimerState → TimerState) (now : Int)
    (s : TimerState) (te : Time_event) (rest : List Time_event) (ev : Event)
    (hdone : s.done = false)
    (htop : s.time_events = te :: rest)
    (hexp : te.next ≤ now)
    (hev : s.events[te.ref]? = some ev)
    (hinv : ev.valid = false) :
    runStep env now s =
      some ({ s with time_events := rest, free_ids := te.ref :: s.free_ids }, none)
    ∧ ∀ id s', remove s id = some (s', true) →
        (∀ j t, invalidAt t id = true → invalidAt (env j t) id = true) →
        ∀ nows s'' fs, runTrace env nows s' = some (s'', fs) → id ∉ fs := by
  constructor
  · simp [runStep, hdone, htop, hexp, hev, hinv]
  · intro id s' hrem henv nows s'' fs htr
    have hinv' : invalidAt s' id = true := by
      unfold remove at hrem
      split at hrem
      · simp at hrem
      · split at hrem
        · rename_i ev' heq
          simp only [Option.some.injEq, Prod.mk.injEq] at hrem
          obtain ⟨rfl, -⟩ := hrem
          have hlt : id < s.events.length := (List.getElem?_eq_some.mp heq).1
          simp [invalidAt, List.getElem?_set_eq_of_lt _ hlt]
        · exact Option.noConfusion hrem
    exact runTrace_invalid_never_fires env id henv nows s' s'' fs hinv' htr

/-- Witness for C3 at concrete inputs: on `sInv` (retired event 0,
stale entry queued, clock at 10) the worker discards the entry,
recycles id 0 and fires nothing; and after `remove 0` succeeds, a
two-iteration run fires no handler at all. -/
theorem c3_witness :
    runStep envId 10 sInv =
      some ({ sInv with time_events := [], free_ids := [0] }, none)
    ∧ (0 : Nat) ∉ ([] : List Nat) :=
  ⟨(c3_invalid_entry_discarded envId 10 sInv { next := 5, ref := 0 } [] evRetired rfl rfl
      (by decide) rfl rfl).1,
   (c3_invalid_entry_discarded envId 10 sInv { next := 5, ref := 0 } [] evRetired rfl rfl
      (by decide) rfl rfl).2 0 sInv (by decide)
      (fun _ _ h => h) [10, 11] { sInv with time_events := [], free_ids := [0] } []
      (by decide)⟩

/-- C4: when a handler invalidates its own id during its own
invocation, the worker — re-checking validity after reacquiring the
lock — pushes the id onto the free pool and does NOT re-arm: the
resulting queue is exactly the queue the handler left (no entry for
the id is pushed), the handler fired only this once, and as long as
later handler invocations keep the id invalid no later iteration ever
fires it again. -/
theorem c4_self_remove_no_rearm (env : Nat → TimerState → TimerState) (now : Int)
    (s s₂ : TimerState) (te : Time_event) (rest : List Time_event) (ev ev₂ : Event)
    (hdone : s.done = false)
    (htop : s.time_events = te :: rest)
    (hexp : te.next ≤ now)
    (hev : s.events[te.ref]? = some ev)
    (hval : ev.valid = true)
    (hs₂ : env te.ref { s with time_events := rest } = s₂)
    (hev₂ : s₂.events[te.ref]? = some ev₂)
    (hinv₂ : ev₂.valid = false) :
    runStep env now s = some ({ s₂ with free_ids := te.ref :: s₂.free_ids }, some te.ref)
    ∧ ((∀ j t, invalidAt t te.ref = true → invalidAt (env j t) te.ref = true) →
        ∀ nows s'' fs,
          runTrace env nows { s₂ with free_ids := te.ref :: s₂.free_ids } = some (s'', fs) →
          te.ref ∉ fs) := by
  constructor
  · rw [hdone] at hs₂
    simp [runStep, hdone, htop, hexp, hev, hval, hs₂, hev₂, hinv₂]
  · intro henv nows s'' fs htr
    have hinv' : invalidAt { s₂ with free_ids := te.ref :: s₂.free_ids } te.ref = true := by
      simp [invalidAt, hev₂, hinv₂]
    exact runTrace_invalid_never_fires env te.ref henv nows _ s'' fs hinv' htr

/-- Witness for C4 at concrete inputs: a valid periodic timer (id 0,
scheduled at 5, period 3) whose handler removes its own id; at clock
10 the worker fires it once, recycles id 0, re-arms nothing, and a
further iteration fires nothing. -/
theorem c4_witness :
    runStep envRemoveSelf 10 sPer =
      some (({ sPerRemoved with free_ids := [0] } : TimerState), some 0)
    ∧ (0 : Nat) ∉ ([] : List Nat) :=
  ⟨(c4_self_remove_no_rearm envRemoveSelf 10 sPer sPerRemoved { next := 5, ref := 0 } []
      evPer { id := 0, start := 5, period := 3, handler := Handler.fn 0, valid := false }
      rfl rfl (by decide) rfl rfl (by decide) rfl rfl).1,
   (c4_self_remove_no_rearm envRemoveSelf 10 sPer sPerRemoved { next := 5, ref := 0 } []
      evPer { id := 0, start := 5, period := 3, handler := Handler.fn 0, valid := false }
      rfl rfl (by decide) rfl rfl (by decide) rfl rfl).2
      (fun j t h => envRemoveSelf_preserves_invalid 0 j t h) [11]
      { sPerRemoved with free_ids := [0] } [] (by decide)⟩

/-- C5: a periodic timer (period > 0) that fires and is still valid
after its handler returns is re-armed with a fresh entry for the same
id whose instant is the POPPED ENTRY's scheduled instant plus the
period (`te.next + period`, not the current time plus the period), and
that entry is present in the resulting queue. -/
theorem c5_periodic_rearm_from_scheduled (env : Nat → TimerState → TimerState) (now : Int)
    (s s₂ : TimerState) (te : Time_event) (rest : List Time_event) (ev ev₂ : Event)
    (hdone : s.done = false)
    (htop : s.time_events = te :: rest)
    (hexp : te.next ≤ now)
    (hev : s.events[te.ref]? = some ev)
    (hval : ev.valid = true)
    (hs₂ : env te.ref { s with time_events := rest } = s₂)
    (hev₂ : s₂.events[te.ref]? = some ev₂)
    (hval₂ : ev₂.valid = true)
    (hper : 0 < ev₂.period) :
    runStep env now s =
      some ({ s₂ with
              time_events :=
                pq_push s₂.time_events { next := te.next + ev₂.period, ref := te.ref } },
            some te.ref)
    ∧ { next := te.next + ev₂.period, ref := te.ref } ∈
        pq_push s₂.time_events { next := te.next + ev₂.period, ref := te.ref } := by
  constructor
  · rw [hdone] at hs₂
    simp [runStep, hdone, htop, hexp, hev, hval, hs₂, hev₂, hval₂, hper]
  · exact pqPushBy_self_mem _ _ _

/-- Witness for C5 at concrete inputs: the valid periodic timer of
`sPer` (scheduled at 5, period 3) fires at clock 10 under handlers
with no timer-API effect, and is re-armed at 5 + 3 = 8 — not at
10 + 3. -/
theorem c5_witness :
    runStep envId 10 sPer = some (sPerRearmed, some 0)
    ∧ { next := (8 : Int), ref := (0 : Nat) } ∈ sPerRearmed.time_events :=
  (c5_periodic_rearm_from_scheduled envId 10 sPer ({ sPer with time_events := [] } : TimerState)
    { next := 5, ref := 0 } [] evPer evPer rfl rfl (by decide) rfl rfl rfl rfl rfl (by decide))

/-- The id returned by a successful `add` is the appended fresh index
`events.size()` when the free pool is empty, and a pooled id
otherwise. -/
theorem add_returned_id (s : TimerState) (when : Int) (hd : Handler) (period : Int)
    (s'' : TimerState) (rid : Nat) (h : add s when hd period = some (s'', rid)) :
    (s.free_ids = [] ∧ rid = s.events.length) ∨ rid ∈ s.free_ids := by
  cases hfree : s.free_ids with
  | nil =>
    left
    simp only [add, hfree, Option.some.injEq, Prod.mk.injEq] at h
    obtain ⟨rfl, rfl⟩ := h
    exact ⟨rfl, rfl⟩
  | cons i rest =>
    right
    simp only [add, hfree] at h
    split at h
    · simp only [Option.some.injEq, Prod.mk.injEq] at h
      obtain ⟨rfl, rfl⟩ := h
      exact List.mem_cons_self i rest
    · exact Option.noConfusion h

/-- C10: `remove` never pushes an id onto the free pool (it returns
the pool verbatim), `add` never pushes either (its pool is a sublist
of the old one: it only pops), and consequently an id that was just
removed — and was not already pooled — cannot be handed out by the
next `add`: ids re-enter circulation only through the worker loop. -/
theorem c10_remove_never_recycles (s : TimerState) (id : Nat) :
    (∀ s' b, remove s id = some (s', b) → s'.free_ids = s.free_ids)
    ∧ (∀ when hd period s'' rid, add s when hd period = some (s'', rid) →
        List.Sublist s''.free_ids s.free_ids)
    ∧ (∀ s', remove s id = some (s', true) → id ∉ s.free_ids →
        ∀ when hd period s'' rid, add s' when hd period = some (s'', rid) → rid ≠ id) := by
  refine ⟨?_, ?_, ?_⟩
  · intro s' b h
    unfold remove at h
    split at h
    · simp only [Option.some.injEq, Prod.mk.injEq] at h
      obtain ⟨rfl, -⟩ := h
      rfl
    · split at h
      · simp only [Option.some.injEq, Prod.mk.injEq] at h
        obtain ⟨rfl, -⟩ := h
        rfl
      · exact Option.noConfusion h
  · intro when hd period s'' rid h
    cases hfree : s.free_ids with
    | nil =>
      simp only [add, hfree, Option.some.injEq, Prod.mk.injEq] at h
      obtain ⟨rfl, rfl⟩ := h
      exact List.Sublist.refl _
    | cons i rest =>
      simp only [add, hfree] at h
      split at h
      · simp only [Option.some.injEq, Prod.mk.injEq] at h
        obtain ⟨rfl, rfl⟩ := h
        exact List.sublist_cons_self i rest
      · exact Option.noConfusion h
  · intro s' hrem hnotin when hd period s'' rid hadd
    unfold remove at hrem
    split at hrem
    · simp at hrem
    · split at hrem
      · rename_i ev heq
        simp only [Option.some.injEq, Prod.mk.injEq] at hrem
        obtain ⟨rfl, -⟩ := hrem
        have hlt : id < s.events.length := (List.getElem?_eq_some.mp heq).1
        rcases add_returned_id _ _ _ _ _ _ hadd with ⟨-, hrid⟩ | hrid
        · have hlen : rid = s.events.length := by simpa using hrid
          intro hcontra
          rw [hcontra] at hlen
          omega
        · have hmem : rid ∈ s.free_ids := by simpa using hrid
          intro hcontra
          rw [hcontra] at hmem
          exact hnotin hmem
      · exact Option.noConfusion hrem

/-- Witness for C10 at concrete inputs: on `sTwo` (two valid events,
empty pool), `remove 0` succeeds and leaves the pool unchanged, and
the next `add` hands out the fresh id 2, not the removed id 0. -/
theorem c10_witness :
    sTwoRemoved.free_ids = sTwo.free_ids ∧ (2 : Nat) ≠ 0 :=
  ⟨(c10_remove_never_recycles sTwo 0).1 sTwoRemoved true (by decide),
   (c10_remove_never_recycles sTwo 0).2.2 sTwoRemoved (by decide) (by decide) 9 (Handler.fn 2) 0
     sTwoAdded 2 (by decide)⟩
